import Mathlib

/-!
Shallow embedding of `src/dynamic-clock.tsx` (the `DynamicClock` React
component): its data model (alarms, world clocks, day-period themes), its
event handlers (`addAlarm`, `toggleAlarm`, `deleteAlarm`), its per-second
effects (theme selection, world-clock refresh, alarm tick-check) and its
formatting helpers (`formatTime`, `formatDate`), together with theorems
checking the specification's claims about them.

Browser/runtime primitives (`Date`, `toLocaleTimeString`,
`toTimeString`) are modelled explicitly: an instant is its local
clock-field reading, and the locale formatters are either given
concretely (zero-padded 24-hour formatting, which is what the fixed
option objects in the source request) or passed as parameters where the
claims do not depend on their output.
-/

/-- Model of a point in time as read by the component: the local
clock fields `getHours`/`getMinutes`/`getSeconds` of a JS `Date`. -/
structure Instant where
  hours : Nat
  minutes : Nat
  seconds : Nat
  deriving DecidableEq, Repr

/-- The four day-period themes of `type TimeTheme` in the source. -/
inductive TimeTheme where
  | morning
  | afternoon
  | evening
  | night
  deriving DecidableEq, Repr

/-- The theme-selection effect (source lines 88–106): from the current
hour (`currentTime.getHours()`, 0–23) pick the theme by the chained
`if hour >= 6 && hour < 12 … else if … else night`. -/
def themeForHour (hour : Nat) : TimeTheme :=
  if 6 ≤ hour ∧ hour < 12 then .morning
  else if 12 ≤ hour ∧ hour < 18 then .afternoon
  else if 18 ≤ hour ∧ hour < 21 then .evening
  else .night

/-- An alarm, `interface Alarm` in the source: unique string id, firing
time `"HH:MM"`, free-text label, on/off flag. -/
structure Alarm where
  id : String
  time : String
  label : String
  enabled : Bool
  deriving DecidableEq, Repr

/-- The component state touched by `addAlarm`: the alarm list and the two
pending input fields `newAlarmTime` / `newAlarmLabel`. -/
structure ClockState where
  alarms : List Alarm
  newAlarmTime : String
  newAlarmLabel : String
  deriving DecidableEq, Repr

/-- The `addAlarm` handler (source lines 192–208).  `now` is the value of
`Date.now()` at the click; the generated id is its decimal string.  JS
string truthiness makes `if (newAlarmTime)` a non-emptiness test.  On a
non-empty time it appends `{id, time, label, enabled: true}` to the list
and clears both input fields; otherwise nothing happens. -/
def addAlarm (s : ClockState) (now : Nat) : ClockState :=
  if s.newAlarmTime ≠ "" then
    { alarms := s.alarms ++
        [{ id := toString now, time := s.newAlarmTime,
           label := s.newAlarmLabel, enabled := true }],
      newAlarmTime := "", newAlarmLabel := "" }
  else s

/-- The `toggleAlarm` handler (source lines 211–221): map over the list,
flipping `enabled` on the alarm whose id matches and keeping the rest. -/
def toggleAlarm (alarms : List Alarm) (id : String) : List Alarm :=
  alarms.map fun alarm =>
    if alarm.id = id then { alarm with enabled := !alarm.enabled } else alarm

/-- The `deleteAlarm` handler (source lines 224–227): keep every alarm
whose id does not match. -/
def deleteAlarm (alarms : List Alarm) (id : String) : List Alarm :=
  alarms.filter fun alarm => alarm.id ≠ id

/-- C2: for every hour in [0,24) the theme function assigns morning on
[6,12), afternoon on [12,18), evening on [18,21) and night otherwise,
with the eight sample values of the spec. -/
theorem themeForHour_spec (h : Nat) (hlt : h < 24) :
    ((themeForHour h = .morning ↔ 6 ≤ h ∧ h < 12) ∧
     (themeForHour h = .afternoon ↔ 12 ≤ h ∧ h < 18) ∧
     (themeForHour h = .evening ↔ 18 ≤ h ∧ h < 21) ∧
     (themeForHour h = .night ↔ h < 6 ∨ 21 ≤ h)) ∧
    (themeForHour 5 = .night ∧ themeForHour 6 = .morning ∧
     themeForHour 11 = .morning ∧ themeForHour 12 = .afternoon ∧
     themeForHour 17 = .afternoon ∧ themeForHour 18 = .evening ∧
     themeForHour 20 = .evening ∧ themeForHour 21 = .night) := by
  revert hlt; revert h; decide

/-- Witness for `themeForHour_spec` at hour 6. -/
theorem themeForHour_spec_witness :
    (themeForHour 6 = .morning ↔ 6 ≤ 6 ∧ 6 < 12) ∧
    themeForHour 6 = .morning := by
  exact ⟨(themeForHour_spec 6 (by decide)).1.1, ((themeForHour_spec 6 (by decide)).2).2.1⟩

/-- C3: adding with an empty pending time is a no-op; otherwise exactly
one new alarm with the generated id, the pending time and label, and
`enabled = true` is appended at the end, the existing alarms are kept
unchanged as a prefix, and both input fields are cleared. -/
theorem addAlarm_spec (s : ClockState) (now : Nat) :
    (s.newAlarmTime = "" → addAlarm s now = s) ∧
    (s.newAlarmTime ≠ "" →
      (addAlarm s now).alarms.length = s.alarms.length + 1 ∧
      (addAlarm s now).alarms.take s.alarms.length = s.alarms ∧
      (addAlarm s now).alarms.getLast? =
        some { id := toString now, time := s.newAlarmTime,
               label := s.newAlarmLabel, enabled := true } ∧
      (addAlarm s now).newAlarmTime = "" ∧
      (addAlarm s now).newAlarmLabel = "") := by
  constructor
  · intro h
    simp [addAlarm, h]
  · intro h
    simp [addAlarm, h, List.take_left, List.getLast?_concat]

/-- Witness for `addAlarm_spec`: a no-op add on an empty time and a
length-one growth on `"07:30"`. -/
theorem addAlarm_spec_witness :
    addAlarm { alarms := [], newAlarmTime := "", newAlarmLabel := "x" } 5 =
      { alarms := [], newAlarmTime := "", newAlarmLabel := "x" } ∧
    (addAlarm { alarms := [], newAlarmTime := "07:30", newAlarmLabel := "x" } 5).alarms.length =
      ([] : List Alarm).length + 1 :=
  ⟨(addAlarm_spec { alarms := [], newAlarmTime := "", newAlarmLabel := "x" } 5).1 rfl,
   ((addAlarm_spec { alarms := [], newAlarmTime := "07:30", newAlarmLabel := "x" } 5).2
      (by decide)).1⟩

/-- C4: toggling rewrites each position of the list by flipping `enabled`
exactly on the matching id, leaves the list unchanged when no id matches,
and toggling twice restores the original list. -/
theorem toggleAlarm_spec (alarms : List Alarm) (id : String) :
    (∀ i : Nat, (toggleAlarm alarms id)[i]? =
      (alarms[i]?).map fun a =>
        if a.id = id then { a with enabled := !a.enabled } else a) ∧
    ((∀ a ∈ alarms, a.id ≠ id) → toggleAlarm alarms id = alarms) ∧
    toggleAlarm (toggleAlarm alarms id) id = alarms := by
  refine ⟨fun i => ?_, fun h => ?_, ?_⟩
  · simp [toggleAlarm, List.getElem?_map]
  · have h2 : ∀ a ∈ alarms,
        (if a.id = id then { a with enabled := !a.enabled } else a) = a := by
      intro a ha
      simp [h a ha]
    rw [toggleAlarm, List.map_congr_left h2, List.map_id']
  · simp only [toggleAlarm, List.map_map]
    have h2 : ∀ a ∈ alarms,
        ((fun alarm =>
            if alarm.id = id then { alarm with enabled := !alarm.enabled } else alarm) ∘
         (fun alarm =>
            if alarm.id = id then { alarm with enabled := !alarm.enabled } else alarm)) a = a := by
      intro a _
      cases a with
      | mk i t lb en => by_cases hid : i = id <;> simp [hid]
    rw [List.map_congr_left h2, List.map_id']

/-- Witness for `toggleAlarm_spec`: toggle twice restores a concrete
one-alarm list, and toggling a nonexistent id is a no-op there. -/
theorem toggleAlarm_spec_witness :
    toggleAlarm (toggleAlarm [⟨"1", "07:30", "", true⟩] "1") "1" =
      [⟨"1", "07:30", "", true⟩] ∧
    toggleAlarm [⟨"1", "07:30", "", true⟩] "2" = [⟨"1", "07:30", "", true⟩] :=
  ⟨(toggleAlarm_spec [⟨"1", "07:30", "", true⟩] "1").2.2,
   (toggleAlarm_spec [⟨"1", "07:30", "", true⟩] "2").2.1 (by decide)⟩

/-- C5: delete keeps exactly the alarms with a different id, is a no-op
when nothing matches, deleting twice equals deleting once, and a toggle
of the deleted id after the delete is a no-op. -/
theorem deleteAlarm_spec (alarms : List Alarm) (id : String) :
    (∀ a : Alarm, a ∈ deleteAlarm alarms id ↔ a ∈ alarms ∧ a.id ≠ id) ∧
    ((∀ a ∈ alarms, a.id ≠ id) → deleteAlarm alarms id = alarms) ∧
    deleteAlarm (deleteAlarm alarms id) id = deleteAlarm alarms id ∧
    toggleAlarm (deleteAlarm alarms id) id = deleteAlarm alarms id := by
  refine ⟨fun a => ?_, fun h => ?_, ?_, ?_⟩
  · simp [deleteAlarm, List.mem_filter]
  · rw [deleteAlarm, List.filter_eq_self]
    intro a ha
    simpa using h a ha
  · simp [deleteAlarm, List.filter_filter]
  · have h2 : ∀ a ∈ deleteAlarm alarms id,
        (if a.id = id then { a with enabled := !a.enabled } else a) = a := by
      intro a ha
      simp only [deleteAlarm] at ha
      have hne : a.id ≠ id := by simpa using (List.mem_filter.mp ha).2
      simp [hne]
    rw [toggleAlarm, List.map_congr_left h2, List.map_id']

/-- Witness for `deleteAlarm_spec`: deletion of a missing id is a no-op
on a concrete list, and delete-then-delete equals delete there. -/
theorem deleteAlarm_spec_witness :
    deleteAlarm [⟨"1", "07:30", "", true⟩] "2" = [⟨"1", "07:30", "", true⟩] ∧
    deleteAlarm (deleteAlarm [⟨"1", "07:30", "", true⟩] "1") "1" =
      deleteAlarm [⟨"1", "07:30", "", true⟩] "1" :=
  ⟨(deleteAlarm_spec [⟨"1", "07:30", "", true⟩] "2").2.1 (by decide),
   (deleteAlarm_spec [⟨"1", "07:30", "", true⟩] "1").2.2.1⟩

/-- C10: toggle preserves the length and, position by position, the id,
time and label of every alarm; delete yields a sublist (relative order of
kept alarms preserved) whose members are alarms of the original list,
fields untouched. -/
theorem alarm_ops_frame (alarms : List Alarm) (id : String) :
    (toggleAlarm alarms id).length = alarms.length ∧
    (∀ i : Nat,
      ((toggleAlarm alarms id)[i]?).map Alarm.id = (alarms[i]?).map Alarm.id ∧
      ((toggleAlarm alarms id)[i]?).map Alarm.time = (alarms[i]?).map Alarm.time ∧
      ((toggleAlarm alarms id)[i]?).map Alarm.label = (alarms[i]?).map Alarm.label) ∧
    List.Sublist (deleteAlarm alarms id) alarms ∧
    (∀ a ∈ deleteAlarm alarms id, a ∈ alarms) := by
  refine ⟨?_, fun i => ?_, ?_, fun a ha => ?_⟩
  · simp [toggleAlarm]
  · cases h : alarms[i]? with
    | none => simp [toggleAlarm, List.getElem?_map, h]
    | some a =>
      refine ⟨?_, ?_, ?_⟩ <;>
        · simp only [toggleAlarm, List.getElem?_map, h, Option.map_some]
          by_cases hid : a.id = id <;> simp [hid]
  · exact List.filter_sublist alarms
  · simp only [deleteAlarm] at ha
    exact (List.mem_filter.mp ha).1

/-- Witness for `alarm_ops_frame`: length preservation and membership of
the survivor on a concrete two-alarm list. -/
theorem alarm_ops_frame_witness :
    (toggleAlarm [⟨"1", "07:30", "", true⟩, ⟨"2", "08:00", "m", false⟩] "1").length =
      ([⟨"1", "07:30", "", true⟩, ⟨"2", "08:00", "m", false⟩] : List Alarm).length ∧
    (⟨"2", "08:00", "m", false⟩ : Alarm) ∈
      ([⟨"1", "07:30", "", true⟩, ⟨"2", "08:00", "m", false⟩] : List Alarm) :=
  ⟨(alarm_ops_frame [⟨"1", "07:30", "", true⟩, ⟨"2", "08:00", "m", false⟩] "1").1,
   (alarm_ops_frame [⟨"1", "07:30", "", true⟩, ⟨"2", "08:00", "m", false⟩] "1").2.2.2
     ⟨"2", "08:00", "m", false⟩ (by decide)⟩

/-- Two-digit zero-padding of a clock field, as produced by the runtime
formatters used in the source (the "2-digit" options and
`Date#toTimeString`). -/
def pad2 (n : Nat) : String :=
  if n < 10 then "0" ++ toString n else toString n

/-- Model of `currentTime.toTimeString().slice(0, 5)` (source line 137):
the instant's local time as zero-padded 24-hour "HH:MM". -/
def currentHM (t : Instant) : String :=
  pad2 t.hours ++ ":" ++ pad2 t.minutes

/-- Model of `toLocaleTimeString("en-US", {hour12: false, hour, minute,
second: "2-digit"})` on an instant's local clock fields: zero-padded
24-hour "HH:MM:SS". -/
def formatHMS (h m s : Nat) : String :=
  pad2 h ++ ":" ++ pad2 m ++ ":" ++ pad2 s

/-- The alert text of source line 144, `アラーム: ${alarm.label || "起きる時間です！"}`:
the empty label is falsy in JS, so it falls back to the default message
(Japanese for "time to wake up!"). -/
def alertMessage (alarm : Alarm) : String :=
  "アラーム: " ++ (if alarm.label = "" then "起きる時間です！" else alarm.label)

/-- The `alarms.forEach` loop of the tick-check effect (source lines
140–146), collecting the raised alerts in list order. -/
def alarmTickAlerts (alarms : List Alarm) (currentTimeString : String) : List String :=
  alarms.foldl
    (fun fired alarm =>
      if alarm.enabled && alarm.time == currentTimeString then fired ++ [alertMessage alarm]
      else fired)
    []

/-- The whole tick-check effect (source lines 133–147): it raises the
alerts and calls no state setter, so the alarm list it leaves behind is
exactly the one it was given. -/
def tickCheck (alarms : List Alarm) (currentTimeString : String) :
    List String × List Alarm :=
  (alarmTickAlerts alarms currentTimeString, alarms)

theorem alarmTickAlerts_aux (alarms : List Alarm) (now : String) (acc : List String) :
    alarms.foldl
      (fun fired alarm =>
        if alarm.enabled && alarm.time == now then fired ++ [alertMessage alarm] else fired)
      acc =
    acc ++ (alarms.filter fun a => a.enabled && a.time == now).map alertMessage := by
  induction alarms generalizing acc with
  | nil => simp
  | cons a l ih =>
    rw [List.foldl_cons, ih, List.filter_cons]
    by_cases h : (a.enabled && a.time == now) = true
    · simp [h, List.append_assoc]
    · simp [h]

theorem alarmTickAlerts_eq_filter_map (alarms : List Alarm) (now : String) :
    alarmTickAlerts alarms now =
      (alarms.filter fun a => a.enabled && a.time == now).map alertMessage := by
  have h := alarmTickAlerts_aux alarms now []
  rw [List.nil_append] at h
  exact h

/-- C1: on a tick at instant `t` the check raises, in list order, exactly
the alerts of the enabled alarms whose time equals `t` formatted as local
zero-padded "HH:MM" (so a disabled alarm never fires), it leaves every
alarm — in particular every enabled flag — unchanged, and a tick at any
instant with the same "HH:MM" fires identically. -/
theorem tickCheck_spec (alarms : List Alarm) (t t' : Instant)
    (hsame : currentHM t' = currentHM t) :
    (tickCheck alarms (currentHM t)).1 =
      (alarms.filter fun a => a.enabled && a.time == currentHM t).map alertMessage ∧
    (tickCheck alarms (currentHM t)).2 = alarms ∧
    tickCheck alarms (currentHM t') = tickCheck alarms (currentHM t) := by
  exact ⟨alarmTickAlerts_eq_filter_map alarms (currentHM t), rfl, by rw [hsame]⟩

/-- Witness for `tickCheck_spec` at 07:30:00 and 07:30:59 with one
enabled matching alarm and one disabled matching alarm. -/
theorem tickCheck_spec_witness :
    (tickCheck [⟨"1", "07:30", "", true⟩, ⟨"2", "07:30", "x", false⟩]
        (currentHM ⟨7, 30, 0⟩)).1 =
      (([⟨"1", "07:30", "", true⟩, ⟨"2", "07:30", "x", false⟩] : List Alarm).filter
          fun a => a.enabled && a.time == currentHM ⟨7, 30, 0⟩).map alertMessage ∧
    tickCheck [⟨"1", "07:30", "", true⟩, ⟨"2", "07:30", "x", false⟩]
        (currentHM ⟨7, 30, 59⟩) =
      tickCheck [⟨"1", "07:30", "", true⟩, ⟨"2", "07:30", "x", false⟩]
        (currentHM ⟨7, 30, 0⟩) :=
  ⟨(tickCheck_spec [⟨"1", "07:30", "", true⟩, ⟨"2", "07:30", "x", false⟩]
      ⟨7, 30, 0⟩ ⟨7, 30, 59⟩ (by decide)).1,
   (tickCheck_spec [⟨"1", "07:30", "", true⟩, ⟨"2", "07:30", "x", false⟩]
      ⟨7, 30, 0⟩ ⟨7, 30, 59⟩ (by decide)).2.2⟩

/-- C7: a fired alert carries the alarm's label after the "アラーム: "
prefix, and when the label is empty it carries the default
message instead; the alert of an enabled matching alarm is among the
alerts the tick raises. -/
theorem alertMessage_spec (alarms : List Alarm) (a : Alarm) (t : Instant)
    (ha : a ∈ alarms) (hen : a.enabled = true) (hm : a.time = currentHM t) :
    alertMessage a ∈ (tickCheck alarms (currentHM t)).1 ∧
    (a.label ≠ "" → alertMessage a = "アラーム: " ++ a.label) ∧
    (a.label = "" → alertMessage a = "アラーム: 起きる時間です！") := by
  refine ⟨?_, fun h => by simp [alertMessage, h], fun h => by simp [alertMessage, h]⟩
  have : (tickCheck alarms (currentHM t)).1 =
      (alarms.filter fun x => x.enabled && x.time == currentHM t).map alertMessage :=
    alarmTickAlerts_eq_filter_map alarms (currentHM t)
  rw [this]
  exact List.mem_map_of_mem alertMessage
    (List.mem_filter.mpr ⟨ha, by simp [hen, hm]⟩)

/-- Witness for `alertMessage_spec`: a concrete enabled alarm with an
empty label fires at 07:30 with the default message. -/
theorem alertMessage_spec_witness :
    alertMessage ⟨"1", "07:30", "", true⟩ ∈
      (tickCheck [⟨"1", "07:30", "", true⟩] (currentHM ⟨7, 30, 0⟩)).1 ∧
    alertMessage ⟨"1", "07:30", "", true⟩ = "アラーム: 起きる時間です！" :=
  ⟨(alertMessage_spec [⟨"1", "07:30", "", true⟩] ⟨"1", "07:30", "", true⟩ ⟨7, 30, 0⟩
      (by decide) rfl (by decide)).1,
   (alertMessage_spec [⟨"1", "07:30", "", true⟩] ⟨"1", "07:30", "", true⟩ ⟨7, 30, 0⟩
      (by decide) rfl (by decide)).2.2 rfl⟩

/-- A world-clock entry, `interface WorldClock` in the source. -/
structure WorldClock where
  city : String
  timezone : String
  time : String
  deriving DecidableEq, Repr

/-- The initial world-clock state (source lines 57–62): the four fixed
(city, timezone) pairs with empty time strings. -/
def initialWorldClocks : List WorldClock :=
  [⟨"ニューヨーク", "America/New_York", ""⟩,
   ⟨"ロンドン", "Europe/London", ""⟩,
   ⟨"東京", "Asia/Tokyo", ""⟩,
   ⟨"シドニー", "Australia/Sydney", ""⟩]

/-- One run of `updateWorldClocks` (source lines 110–125): map over the
entries, spreading every existing property and replacing only `time`
with the current instant formatted in the entry's timezone.  `zoneTime`
models the runtime's timezone database: the (hours, minutes, seconds)
reading of the current instant in the given zone. -/
def updateWorldClocks (zoneTime : String → Nat × Nat × Nat)
    (clocks : List WorldClock) : List WorldClock :=
  clocks.map fun clock =>
    { clock with
      time := formatHMS (zoneTime clock.timezone).1 (zoneTime clock.timezone).2.1
        (zoneTime clock.timezone).2.2 }

/-- C8: a world-clock tick keeps the number of entries and every entry's
city and timezone, and rewrites each entry's time to the current instant
formatted in that entry's timezone as "HH:MM:SS"; the initial state holds
exactly the four fixed (city, timezone) pairs. -/
theorem worldClocks_tick_spec (zoneTime : String → Nat × Nat × Nat)
    (clocks : List WorldClock) :
    (updateWorldClocks zoneTime clocks).length = clocks.length ∧
    ((updateWorldClocks zoneTime clocks).map fun c => (c.city, c.timezone)) =
      (clocks.map fun c => (c.city, c.timezone)) ∧
    (∀ i : Nat, ((updateWorldClocks zoneTime clocks)[i]?).map WorldClock.time =
      (clocks[i]?).map fun c =>
        formatHMS (zoneTime c.timezone).1 (zoneTime c.timezone).2.1
          (zoneTime c.timezone).2.2) ∧
    (initialWorldClocks.map fun c => (c.city, c.timezone)) =
      [("ニューヨーク", "America/New_York"), ("ロンドン", "Europe/London"),
       ("東京", "Asia/Tokyo"), ("シドニー", "Australia/Sydney")] := by
  refine ⟨by simp [updateWorldClocks], ?_, fun i => ?_, rfl⟩
  · simp [updateWorldClocks, List.map_map]
  · cases h : clocks[i]? with
    | none => simp [updateWorldClocks, List.getElem?_map, h]
    | some c => simp [updateWorldClocks, List.getElem?_map, h]

/-- `formatTime` (source lines 232–240): a null date gives the
placeholder "--:--:--", otherwise the zero-padded 24-hour "HH:MM:SS" of
the en-US formatter with the 2-digit options. -/
def formatTime (date : Option Instant) : String :=
  match date with
  | none => "--:--:--"
  | some d => formatHMS d.hours d.minutes d.seconds

/-- `formatDate` (source lines 243–251): a null date gives the
placeholder "----年--月--日", otherwise the ja-JP long date of the
instant; that locale formatter is a parameter since no claim depends on
its output. -/
def formatDate (localeDate : Instant → String) (date : Option Instant) : String :=
  match date with
  | none => "----年--月--日"
  | some d => localeDate d

/-- C9: before the first tick, while the instant is undefined, both
formatters return their fixed placeholder glyph strings, independent of
any other state (in particular of the date formatter). -/
theorem format_placeholder_spec :
    formatTime none = "--:--:--" ∧
    ∀ localeDate : Instant → String, formatDate localeDate none = "----年--月--日" :=
  ⟨rfl, fun _ => rfl⟩

/-- A user action on the alarm list: an add click (with its `Date.now()`
value and the pending time/label inputs), a toggle or a delete. -/
inductive AlarmOp where
  | add (now : Nat) (time label : String)
  | toggle (id : String)
  | delete (id : String)
  deriving DecidableEq, Repr

/-- Effect of one user action on the alarm list, through the source
handlers. -/
def applyOp (alarms : List Alarm) : AlarmOp → List Alarm
  | .add now time label =>
      (addAlarm { alarms := alarms, newAlarmTime := time, newAlarmLabel := label } now).alarms
  | .toggle id => toggleAlarm alarms id
  | .delete id => deleteAlarm alarms id

/-- The alarm list reached from the empty list by a sequence of user
actions. -/
def runOps (ops : List AlarmOp) : List Alarm :=
  ops.foldl applyOp []

/-- The id an add action generates (`Date.now().toString()`). -/
def opAddId : AlarmOp → Option String
  | .add now _ _ => some (toString now)
  | .toggle _ => none
  | .delete _ => none

/-- The pending time an add action submits. -/
def opAddTime : AlarmOp → Option String
  | .add _ time _ => some time
  | .toggle _ => none
  | .delete _ => none

/-- Decidable check of the zero-padded 24-hour "HH:MM" pattern. -/
def isHHMM (s : String) : Bool :=
  match s.toList with
  | [h1, h2, c, m1, m2] =>
    c == ':' && h1.isDigit && h2.isDigit && m1.isDigit && m2.isDigit &&
    decide ((h1.toNat - 48) * 10 + (h2.toNat - 48) < 24) &&
    decide ((m1.toNat - 48) * 10 + (m2.toNat - 48) < 60)
  | _ => false

theorem toggleAlarm_map_id (l : List Alarm) (id : String) :
    (toggleAlarm l id).map Alarm.id = l.map Alarm.id := by
  simp only [toggleAlarm, List.map_map]
  apply List.map_congr_left
  intro a _
  by_cases h : a.id = id <;> simp [h]

theorem mem_toggleAlarm (l : List Alarm) (id : String) (a : Alarm)
    (ha : a ∈ toggleAlarm l id) : ∃ b ∈ l, a.id = b.id ∧ a.time = b.time := by
  simp only [toggleAlarm, List.mem_map] at ha
  obtain ⟨b, hb, rfl⟩ := ha
  refine ⟨b, hb, ?_, ?_⟩ <;> by_cases h : b.id = id <;> simp [h]

theorem mem_deleteAlarm (l : List Alarm) (id : String) (a : Alarm)
    (ha : a ∈ deleteAlarm l id) : a ∈ l := by
  simp only [deleteAlarm] at ha
  exact (List.mem_filter.mp ha).1

theorem runOps_invariant_aux (ops : List AlarmOp) :
    ∀ l : List Alarm,
    (ops.filterMap opAddId).Pairwise (· ≠ ·) →
    (∀ s ∈ ops.filterMap opAddId, ∀ a ∈ l, a.id ≠ s) →
    (l.map Alarm.id).Nodup →
    (∀ t ∈ ops.filterMap opAddTime, t = "" ∨ isHHMM t = true) →
    (∀ a ∈ l, isHHMM a.time = true) →
    ((ops.foldl applyOp l).map Alarm.id).Nodup ∧
    ∀ a ∈ ops.foldl applyOp l, isHHMM a.time = true := by
  induction ops with
  | nil => exact fun l _ _ hnodup _ hltimes => ⟨hnodup, hltimes⟩
  | cons op rest ih =>
    intro l hids hdisj hnodup htimes hltimes
    rw [List.foldl_cons]
    cases op with
    | add now time label =>
      simp only [List.filterMap_cons, opAddId, opAddTime] at hids hdisj htimes
      rw [List.pairwise_cons] at hids
      by_cases htime : time = ""
      · have happ : applyOp l (.add now time label) = l := by
          simp [applyOp, addAlarm, htime]
        rw [happ]
        refine ih l hids.2 (fun s hs a ha => hdisj s (List.mem_cons_of_mem _ hs) a ha)
          hnodup (fun t ht => htimes t (List.mem_cons_of_mem _ ht)) hltimes
      · have happ : applyOp l (.add now time label) =
            l ++ [{ id := toString now, time := time, label := label, enabled := true }] := by
          simp [applyOp, addAlarm, htime]
        rw [happ]
        have hfresh : ∀ a ∈ l, a.id ≠ toString now :=
          hdisj (toString now) (List.mem_cons_self _ _)
        have htnew : isHHMM time = true := by
          rcases htimes time (List.mem_cons_self _ _) with h | h
          · exact absurd h htime
          · exact h
        refine ih _ hids.2 ?_ ?_ (fun t ht => htimes t (List.mem_cons_of_mem _ ht)) ?_
        · intro s hs a ha
          rcases List.mem_append.mp ha with hal | hanew
          · exact hdisj s (List.mem_cons_of_mem _ hs) a hal
          · have : a = { id := toString now, time := time, label := label, enabled := true } := by
              simpa using hanew
            rw [this]
            exact fun hc => hids.1 s hs hc
        · rw [List.map_append]
          rw [List.nodup_append]
          refine ⟨hnodup, by simp, ?_⟩
          intro x hx hx2
          simp only [List.map_cons, List.map_nil, List.mem_singleton] at hx2
          rcases List.mem_map.mp hx with ⟨a, ha, rfl⟩
          exact hfresh a ha hx2
        · intro a ha
          rcases List.mem_append.mp ha with hal | hanew
          · exact hltimes a hal
          · have : a = { id := toString now, time := time, label := label, enabled := true } := by
              simpa using hanew
            rw [this]
            exact htnew
    | toggle id =>
      simp only [List.filterMap_cons, opAddId, opAddTime] at hids hdisj htimes
      have happ : applyOp l (.toggle id) = toggleAlarm l id := rfl
      rw [happ]
      refine ih _ hids ?_ ?_ htimes ?_
      · intro s hs a ha
        rcases mem_toggleAlarm l id a ha with ⟨b, hb, hid, _⟩
        rw [hid]
        exact hdisj s hs b hb
      · rw [toggleAlarm_map_id]
        exact hnodup
      · intro a ha
        rcases mem_toggleAlarm l id a ha with ⟨b, hb, _, htm⟩
        rw [htm]
        exact hltimes b hb
    | delete id =>
      simp only [List.filterMap_cons, opAddId, opAddTime] at hids hdisj htimes
      have happ : applyOp l (.delete id) = deleteAlarm l id := rfl
      rw [happ]
      refine ih _ hids ?_ ?_ htimes ?_
      · exact fun s hs a ha => hdisj s hs a (mem_deleteAlarm l id a ha)
      · exact hnodup.sublist ((List.filter_sublist l).map Alarm.id)
      · exact fun a ha => hltimes a (mem_deleteAlarm l id a ha)

/-- C6: in every alarm list reachable from the empty list by adds,
toggles and deletes — assuming the `Date.now()` values of distinct add
clicks render to distinct strings (they are millisecond timestamps) and
every submitted time is, as the time input element guarantees, empty or
a zero-padded 24-hour "HH:MM" — the alarm ids are pairwise distinct and
every alarm's time matches the "HH:MM" pattern. -/
theorem runOps_invariant (ops : List AlarmOp)
    (hids : (ops.filterMap opAddId).Pairwise (· ≠ ·))
    (htimes : ∀ t ∈ ops.filterMap opAddTime, t = "" ∨ isHHMM t = true) :
    ((runOps ops).map Alarm.id).Nodup ∧
    ∀ a ∈ runOps ops, isHHMM a.time = true :=
  runOps_invariant_aux ops [] hids (by simp) (by simp) htimes (by simp)

/-- Witness for `runOps_invariant` on a concrete four-action trace. -/
theorem runOps_invariant_witness :
    ((runOps [.add 100 "07:30" "wake", .toggle "100", .add 250 "08:00" "",
        .delete "100"]).map Alarm.id).Nodup :=
  (runOps_invariant
    [.add 100 "07:30" "wake", .toggle "100", .add 250 "08:00" "", .delete "100"]
    (by decide) (by decide)).1
